import Mathlib

/-
Shallow embedding of the Syllabus repository core:
  * syllabus/task_space/task_space.py   (class TaskSpace)
  * syllabus/core/curriculum_sync_wrapper.py
    (MultiProcessingCurriculumWrapper, remote_call, RayCurriculumWrapper)

Python conventions used by the embedding:
  * Python int  ↦ Int; Python float ↦ ℚ (only its type tag matters here).
  * A raising method returns `Except PyError α`; `Except.error` is a raised
    exception, `Except.ok` a normal return.  Python's `None` return value is
    `Option.none` inside the `ok` payload.
  * Opaque task values are modelled as Int (tasks are hashable and
    equality-comparable; the repository's examples use small integers).
  * A Python `dict` built by a comprehension keeps the LAST binding for a
    duplicated key; lookups of absent keys raise KeyError.
  * A Python `set` of small natural numbers stores element `i` in hash slot
    `i` (CPython: hash(i) = i, open addressing, table larger than the set),
    so iteration visits elements in ascending value order.  The embedding
    therefore models `set` as a strictly ascending list.
-/

inductive PyError where
  | keyError
  | assertionError
  | notImplementedError
  | typeError
  | attributeError
deriving DecidableEq, Repr

/-- A Python number as passed to `increase_space(amount)`: either an int
(`isinstance(amount, int)` succeeds) or a float (it fails).  Only the type
tag is ever used by the source. -/
inductive PyNum where
  | int (a : Int)
  | float (q : ℚ)

/-- The `nvec` / `n` payload of a MultiDiscrete / MultiBinary gym space:
an integer or a (possibly nested) array of such, as accepted by
`TaskSpace._sum_axes`. -/
inductive Axes where
  | size (n : Int)
  | arr (xs : List Axes)

/-- `TaskSpace._sum_axes`: an int is returned as is; a list or ndarray is
mapped recursively and reduced with `np.prod` (the product of the recursive
results). -/
def sum_axes : Axes → Int
  | .size n => n
  | .arr [] => 1
  | .arr (a :: as) => sum_axes a * sum_axes (.arr as)

/-- A gym space as dispatched on by `TaskSpace.count_tasks`.  `tuple` and
`dict` carry the ordered subspaces (`gym_space.spaces`, respectively
`gym_space.spaces.values()`).  `multiBinary` carries the constructor
argument, which gym's MultiBinary stores in the attribute `n`; MultiBinary
has NO attribute `nvec`. -/
inductive GymSpace where
  | discrete (n : Int)
  | box
  | tuple (spaces : List GymSpace)
  | dict (spaces : List GymSpace)
  | multiDiscrete (nvec : Axes)
  | multiBinary (n : Axes)

/-- `TaskSpace.count_tasks(gym_space)`.
  * Discrete → `gym_space.n`.
  * Box → `None`.
  * Tuple/Dict → `sum([self.count_tasks(task_space=s) for s in ...])`: the
    method's parameter is named `gym_space`, not `task_space`, so the very
    first recursive call raises `TypeError: unexpected keyword argument`;
    with no subspaces the comprehension is empty and `sum([])` returns 0.
  * MultiBinary → reads `gym_space.nvec`, an attribute MultiBinary does not
    have, raising AttributeError.
  * MultiDiscrete → `TaskSpace._sum_axes(gym_space.nvec)`. -/
def count_tasks : GymSpace → Except PyError (Option Int)
  | .discrete n => .ok (some n)
  | .box => .ok none
  | .tuple [] => .ok (some 0)
  | .tuple (_ :: _) => .error .typeError
  | .dict [] => .ok (some 0)
  | .dict (_ :: _) => .error .typeError
  | .multiBinary _ => .error .attributeError
  | .multiDiscrete nvec => .ok (some (sum_axes nvec))

/-- The `gym_space` of a successfully constructed `TaskSpace`:
`_make_task_encoder` raises NotImplementedError for every space kind except
Discrete and Box.  A Box space is abstracted by its scalar membership test
`space.contains`. -/
inductive Domain where
  | discrete (n : Int)
  | box (mem : Int → Bool)

/-- Lookup in the dict comprehension `\x7btask: i for i, task in
enumerate(tasks)\x7d`, where enumeration starts at index `k`: a later
binding of the same task overwrites an earlier one, so the lookup returns
the index of the LAST occurrence of the key. -/
def encodeLookup (k : Nat) : List Int → Int → Option Int
  | [], _ => none
  | a :: as, t =>
    match encodeLookup (k + 1) as t with
    | some v => some v
    | none => if t = a then some (k : Int) else none

/-- `self._encode_map = \x7btask: i for i, task in enumerate(tasks)\x7d`, as a
lookup function (None = key absent, i.e. KeyError on subscript). -/
def makeEncodeMap (tasks : List Int) : Int → Option Int :=
  encodeLookup 0 tasks

/-- `self._decode_map = \x7bi: task for i, task in enumerate(tasks)\x7d`: the
keys are exactly the indices `0 .. len(tasks)-1`, each bound to `tasks[i]`. -/
def makeDecodeMap (tasks : List Int) : Int → Option Int :=
  fun i => if 0 ≤ i then tasks.get? i.toNat else none

/-- The Discrete-branch `encoder` lambda: `self._encode_map[task]`, raising
KeyError when the task is absent. -/
def mkDiscreteEncoder (tasks : List Int) : Int → Except PyError (Option Int) :=
  fun t =>
    match makeEncodeMap tasks t with
    | some i => .ok (some i)
    | none => .error .keyError

/-- The Discrete-branch `decoder` lambda: `self._decode_map[encoding]`,
raising KeyError when the index is absent. -/
def mkDiscreteDecoder (tasks : List Int) : Int → Except PyError (Option Int) :=
  fun i =>
    match makeDecodeMap tasks i with
    | some t => .ok (some t)
    | none => .error .keyError

/-- The Box-branch `encoder`/`decoder` lambda:
`task if space.contains(...) else None`. -/
def mkBoxCoder (mem : Int → Bool) : Int → Except PyError (Option Int) :=
  fun t => .ok (if mem t then some t else none)

/-- `TaskSpace._make_task_encoder(space, tasks)`.  For Discrete it first
asserts `space.n == len(tasks)` and then builds both maps from `tasks` in
iteration order; for Box it builds containment-checking lambdas. -/
def make_task_encoder (space : Domain) (tasks : List Int) :
    Except PyError ((Int → Except PyError (Option Int)) × (Int → Except PyError (Option Int))) :=
  match space with
  | .discrete n =>
    if n = (tasks.length : Int) then
      .ok (mkDiscreteEncoder tasks, mkDiscreteDecoder tasks)
    else
      .error .assertionError
  | .box mem => .ok (mkBoxCoder mem, mkBoxCoder mem)

/-- Ordered insertion keeping the list strictly ascending: the model of
adding one element to a CPython set of small naturals (see header note on
set iteration order). -/
def setInsert (x : Int) : List Int → List Int
  | [] => [x]
  | y :: ys =>
    if x < y then x :: y :: ys
    else if x = y then y :: ys
    else y :: setInsert x ys

/-- `set(tasks)`: insert every list element into the (ascending-ordered)
set model. -/
def pySetOf (l : List Int) : List Int :=
  l.foldl (fun s x => setInsert x s) []

/-- The state of a `TaskSpace` object: `self.gym_space`, `self._encoder`,
`self._decoder`, `self._tasks`. -/
structure TaskSpace where
  domain : Domain
  encoder : Int → Except PyError (Option Int)
  decoder : Int → Except PyError (Option Int)
  tasks : List Int

/-- `TaskSpace.__init__(gym_space, tasks)`: builds encoder/decoder via
`_make_task_encoder` and stores `self._tasks = set(tasks)`. -/
def TaskSpace.init (space : Domain) (tasks : List Int) : Except PyError TaskSpace :=
  match make_task_encoder space tasks with
  | .error e => .error e
  | .ok (enc, dec) =>
    .ok { domain := space, encoder := enc, decoder := dec, tasks := pySetOf tasks }

/-- `gym_space.contains(np.asarray(encoding, dtype=...))` for an integer
encoding: a Discrete space contains exactly `0 <= encoding < n`; a Box
space applies its own membership test. -/
def Domain.containsIdx : Domain → Int → Bool
  | .discrete n, i => decide (0 ≤ i ∧ i < n)
  | .box mem, i => mem i

/-- `TaskSpace.decode(encoding)`: return `None` when the space does not
contain the raw index, otherwise call `self._decoder(encoding)` (whose
exceptions, if any, propagate: there is no try/except here). -/
def TaskSpace.decodeE (ts : TaskSpace) (encoding : Int) : Except PyError (Option Int) :=
  if ts.domain.containsIdx encoding then ts.decoder encoding else .ok none

/-- `TaskSpace.encode(task)`: `try: return self._encoder(task) except
Exception: return None` — every exception from the encoder is swallowed
and turned into `None`. -/
def TaskSpace.encodeE (ts : TaskSpace) (task : Int) : Except PyError (Option Int) :=
  match ts.encoder task with
  | .ok v => .ok v
  | .error _ => .ok none

/-- The value `TaskSpace.encode(task)` produces (it can only return
normally, by construction of the try/except). -/
def TaskSpace.encode (ts : TaskSpace) (task : Int) : Option Int :=
  match ts.encoder task with
  | .ok v => v
  | .error _ => none

/-- `TaskSpace.count_tasks()` applied to the space's own domain (the
`gym_space is None` default): Discrete → its size, Box → `None`. -/
def TaskSpace.num_tasks (ts : TaskSpace) : Option Int :=
  match ts.domain with
  | .discrete n => some n
  | .box _ => none

/-- `TaskSpace.increase_space(amount)`: for a Discrete space, assert
`isinstance(amount, int)` and return `Discrete(n + amount)`; any other
space kind falls off the end of the function and implicitly returns
`None`. -/
def TaskSpace.increase_space (ts : TaskSpace) (amount : PyNum) : Except PyError (Option Domain) :=
  match ts.domain with
  | .discrete n =>
    match amount with
    | .int a => .ok (some (.discrete (n + a)))
    | .float _ => .error .assertionError
  | .box _ => .ok none

/-- `TaskSpace.add_task(task)`: a no-op when the task is already in
`self._tasks`; otherwise add it to the set, replace `self.gym_space` with
`self.increase_space()` (default amount 1), and rebuild encoder and
decoder with `self._make_task_encoder(self.gym_space, self._tasks)` — note
that the REBUILD IS FED THE SET, so the maps enumerate tasks in set
iteration order, not in the original registration order.  When
`increase_space` returned `None` (non-Discrete space), the subsequent
`_make_task_encoder(None, ...)` raises NotImplementedError. -/
def TaskSpace.add_task (ts : TaskSpace) (task : Int) : Except PyError TaskSpace :=
  if task ∈ ts.tasks then .ok ts
  else
    let tasks' := setInsert task ts.tasks
    match ts.increase_space (.int 1) with
    | .error e => .error e
    | .ok none => .error .notImplementedError
    | .ok (some d') =>
      match make_task_encoder d' tasks' with
      | .error e => .error e
      | .ok (enc, dec) =>
        .ok { domain := d', encoder := enc, decoder := dec, tasks := tasks' }

/-
Queue synchronization engine: MultiProcessingCurriculumWrapper.
Curriculum sampling is abstracted as a function `sample : Nat → List Int`
(the contract `sample(k) -> ordered sequence of Task`); the batches handed
to `batch_update_curriculum` are recorded in a history field.  Two ghost
counters (`dispatched_nonseed`, `consumed_requests`) record how many
assignment messages were put after the seeds and how many consumed update
entries carried `request_sample = True`.
-/

/-- One update dict: the optional `request_sample` flag (absent = `none`)
plus opaque domain-specific outcome fields. -/
structure Update where
  request_sample : Option Bool
  payload : Int
deriving DecidableEq, Repr

/-- One element taken from the update queue: a bare dict or a list of
dicts. -/
inductive QueueItem where
  | single (u : Update)
  | batch (us : List Update)
deriving DecidableEq, Repr

/-- One assignment message put on the task queue: `next_task`, and the
`added_tasks` entry that only non-seed messages carry. -/
structure TaskMsg where
  next_task : Int
  added_tasks : Option (List Int)
deriving DecidableEq, Repr

/-- The mutable state of a MultiProcessingCurriculumWrapper together with
the two queues and the ghost counters. -/
structure EngineState where
  num_envs : Nat
  task_queue : List TaskMsg
  update_queue : List QueueItem
  queued_tasks : Int
  added_tasks : List Int
  applied : List (List Update)
  dispatched_nonseed : Nat
  consumed_requests : Nat
deriving DecidableEq, Repr

/-- A freshly constructed wrapper for `n` environments: empty queues,
`queued_tasks = 0`, empty `added_tasks` buffer. -/
def initState (n : Nat) : EngineState :=
  { num_envs := n, task_queue := [], update_queue := [], queued_tasks := 0,
    added_tasks := [], applied := [], dispatched_nonseed := 0, consumed_requests := 0 }

/-- Normalization at the top of the drain loop:
`if isinstance(batch_updates, dict): batch_updates = [batch_updates]`. -/
def toBatch : QueueItem → List Update
  | .single u => [u]
  | .batch us => us

/-- `requests = sum([result["request_sample"] for result in batch_updates
if "request_sample" in result])`: keep the entries where the key is
present and sum their boolean values (True = 1, False = 0). -/
def countRequests (batch : List Update) : Nat :=
  ((batch.filter (fun u => u.request_sample.isSome)).map
    (fun u => if u.request_sample == some true then 1 else 0)).sum

/-- The body of one pass of the inner drain loop, applied to one item
already taken from the update queue: normalize it, subtract the request
count from `queued_tasks`, and pass the whole batch to
`batch_update_curriculum` (recorded in `applied`); the ghost counter
`consumed_requests` tracks the consumed `request_sample = True` entries. -/
def processItem (item : QueueItem) (s : EngineState) : EngineState :=
  let batch := toBatch item
  let r := countRequests batch
  { s with queued_tasks := s.queued_tasks - (r : Int),
           applied := s.applied ++ [batch],
           consumed_requests := s.consumed_requests + r }

/-- The inner `while not self.update_queue.empty()` loop over a list of
pending items, threading the iteration-local `requested_tasks`
accumulator. -/
def drainAll : List QueueItem → EngineState → Nat → EngineState × Nat
  | [], s, req => (s, req)
  | item :: rest, s, req =>
    drainAll rest (processItem item s) (req + countRequests (toBatch item))

/-- The dispatch loop `for task in new_tasks`: each message carries the
task and the current `added_tasks` buffer, `queued_tasks` is incremented,
and the buffer is cleared after every message (so only the first message
of a cycle carries a non-empty buffer). -/
def dispatchTasks : List Int → EngineState → EngineState
  | [], s => s
  | t :: ts, s =>
    dispatchTasks ts
      { s with task_queue := s.task_queue ++ [{ next_task := t, added_tasks := some s.added_tasks }],
               queued_tasks := s.queued_tasks + 1,
               dispatched_nonseed := s.dispatched_nonseed + 1,
               added_tasks := [] }

/-- `MultiProcessingCurriculumWrapper.start()`: sample
`self.curriculum.sample(self.num_envs)` and put one
`\x7b"next_task": task\x7d` message per sampled task; `queued_tasks` is not
touched for these seed assignments. -/
def start (sample : Nat → List Int) (s : EngineState) : EngineState :=
  { s with task_queue :=
      s.task_queue ++ (sample s.num_envs).map (fun t => { next_task := t, added_tasks := none }) }

/-- A worker puts one item on the update queue. -/
def enqueueItem (item : QueueItem) (s : EngineState) : EngineState :=
  { s with update_queue := s.update_queue ++ [item] }

/-- A worker takes the next assignment message off the task queue. -/
def popTaskMsg (s : EngineState) : EngineState :=
  { s with task_queue := s.task_queue.tail }

/-- One full iteration of `_update_queues`: drain the update queue, then,
if any entry requested a resample, sample that many tasks and dispatch
them. -/
def updateIteration (sample : Nat → List Int) (s : EngineState) : EngineState :=
  let (s', requested) := drainAll s.update_queue { s with update_queue := [] } 0
  if requested > 0 then dispatchTasks (sample requested) s' else s'

/-- Every state observable between two primitive operations of the engine
and its workers: the initial state, and closure under seeding (`start`),
workers enqueueing updates or taking assignments, processing one drained
update item, and dispatching one sampled task.  This is a superset of the
interleavings the real control flow produces, so an invariant proved over
it holds at every real observation point. -/
inductive Reach (sample : Nat → List Int) : EngineState → Prop
  | init (n : Nat) : Reach sample (initState n)
  | start {s : EngineState} : Reach sample s → Reach sample (start sample s)
  | enqueue {s : EngineState} (item : QueueItem) : Reach sample s → Reach sample (enqueueItem item s)
  | popTask {s : EngineState} : Reach sample s → Reach sample (popTaskMsg s)
  | processOne {s : EngineState} (item : QueueItem) (rest : List QueueItem) :
      Reach sample s → s.update_queue = item :: rest →
      Reach sample (processItem item { s with update_queue := rest })
  | dispatchOne {s : EngineState} (t : Int) :
      Reach sample s → Reach sample (dispatchTasks [t] s)

/-
Actor synchronization engine: the `remote_call` decorator.
-/

/-- A Python attribute-lookup result as compared by `remote_call`'s
override check: `getattr(CurriculumWrapper, f_name)` yields the plain
function object stored on the class; `getattr(self, f_name)` yields a
bound method of the instance. -/
inductive PyMethodVal where
  | function (cls : String) (f_name : String)
  | boundMethod (objId : Nat) (f_name : String)
deriving DecidableEq, Repr

/-- CPython `==` on these values: two plain functions are equal only if
they are the same object; two bound methods are equal when their `__self__`
and `__func__` agree; comparing a bound method with a plain function
returns NotImplemented on the method side and falls back to identity,
which is False. -/
def pyEq : PyMethodVal → PyMethodVal → Bool
  | .function c1 n1, .function c2 n2 => c1 == c2 && n1 == n2
  | .boundMethod o1 n1, .boundMethod o2 n2 => o1 == o2 && n1 == n2
  | _, _ => false

/-- What one call through `remote_call`'s wrapper did: whether
`ray.get(curriculum_func.remote(*args, **kw))` was executed, and the
wrapper's return value. -/
structure RemoteCallResult where
  forwarded : Bool
  result : Option Int
deriving DecidableEq, Repr

/-- The body of `remote_call`'s inner `wrapper(self, *args, **kw)`:
compare `getattr(self, f_name)` (a bound method of instance `objId`) with
`getattr(CurriculumWrapper, f_name)` (a plain function); only when they
compare equal, forward the call to the remote curriculum and return
`remoteResult`; otherwise fall off the end of the wrapper and return
`None`. -/
def remote_call_wrapper (objId : Nat) (f_name : String) (remoteResult : Int) : RemoteCallResult :=
  let parent_func := PyMethodVal.function "CurriculumWrapper" f_name
  let child_func := PyMethodVal.boundMethod objId f_name
  if pyEq child_func parent_func then
    { forwarded := true, result := some remoteResult }
  else
    { forwarded := false, result := none }

/-- Modelled from the spec: `decorate_all_functions` (defined in
syllabus/core, which is not included under src/) installs the decorator on
the facade operations of `RayCurriculumWrapper`, "generating a uniform
remote-call implementation for the unmodified ones"; the installed
implementation of each unmodified facade operation is therefore
`remote_call`'s wrapper. -/
def installedFacadeImpl (objId : Nat) (f_name : String) (remoteResult : Int) : RemoteCallResult :=
  remote_call_wrapper objId f_name remoteResult

/-
Concrete fixtures used by witnesses and counterexamples.
-/

/-- `TaskSpace(Discrete(2), [5, 5])`: a task list of the declared length
that contains a duplicate; the constructor accepts it. -/
def tsC1 : Except PyError TaskSpace := TaskSpace.init (.discrete 2) [5, 5]

/-- `TaskSpace(Discrete(3), [2, 1, 0])`: registration order differs from
the ascending iteration order of `set([2, 1, 0])`. -/
def tsC2 : Except PyError TaskSpace := TaskSpace.init (.discrete 3) [2, 1, 0]

/-- The state of `tsC2` after `add_task(3)`. -/
def tsC2' : Except PyError TaskSpace := tsC2.bind (fun ts => ts.add_task 3)

/-- The TaskSpace produced by `TaskSpace(Discrete(2), [7, 9])`. -/
def tsRT : TaskSpace :=
  { domain := .discrete 2, encoder := mkDiscreteEncoder [7, 9],
    decoder := mkDiscreteDecoder [7, 9], tasks := pySetOf [7, 9] }

/-- The TaskSpace produced by `TaskSpace(Discrete(1), [0])`. -/
def tsW : TaskSpace :=
  { domain := .discrete 1, encoder := mkDiscreteEncoder [0],
    decoder := mkDiscreteDecoder [0], tasks := pySetOf [0] }

/-- A Box-backed TaskSpace (the only non-Discrete kind the constructor
accepts), with an arbitrary membership test. -/
def tsBox : TaskSpace :=
  { domain := .box (fun _ => false), encoder := mkBoxCoder (fun _ => false),
    decoder := mkBoxCoder (fun _ => false), tasks := [] }

/-- A concrete curriculum sampling function honouring the contract
`sample(k)` returns `k` tasks. -/
def sampleC : Nat → List Int := fun k => (List.range k).map (fun j => (j : Int))

/-- A single worker update that requests a resample. -/
def updC : Update := { request_sample := some true, payload := 7 }

/-- Engine with 2 workers right after `start()`. -/
def sC1 : EngineState := start sampleC (initState 2)

/-- A worker has posted `updC` (feedback for a seed assignment). -/
def sC2 : EngineState := enqueueItem (.single updC) sC1

/-- The engine has drained and processed that update: the observation
point directly after `self.queued_tasks -= requests`. -/
def sC3 : EngineState := processItem (.single updC) { sC2 with update_queue := [] }

/-
Helper lemmas about the dict/set models and the drain loop.
-/

theorem encodeLookup_eq_none_of_not_mem {t : Int} :
    ∀ {as : List Int} (k : Nat), t ∉ as → encodeLookup k as t = none := by
  intro as
  induction as with
  | nil => intro k _; rfl
  | cons a tl ih =>
    intro k h
    have h1 : t ≠ a := fun e => h (e ▸ List.mem_cons_self a tl)
    have h2 : t ∉ tl := fun m => h (List.mem_cons_of_mem a m)
    simp [encodeLookup, ih (k + 1) h2, h1]

theorem encodeLookup_mem {t : Int} :
    ∀ {as : List Int} (k : Nat), t ∈ as →
      ∃ j : Nat, encodeLookup k as t = some (((k + j : Nat) : Int)) ∧ as.get? j = some t := by
  intro as
  induction as with
  | nil => intro k h; cases h
  | cons a tl ih =>
    intro k h
    by_cases hm : t ∈ tl
    · obtain ⟨j, hj1, hj2⟩ := ih (k + 1) hm
      refine ⟨j + 1, ?_, by simpa using hj2⟩
      have hstep : encodeLookup k (a :: tl) t = some (((k + 1 + j : Nat) : Int)) := by
        simp [encodeLookup, hj1]
      rw [hstep]
      congr 1
      omega
    · have ht : t = a := by
        rcases List.mem_cons.mp h with h' | h'
        · exact h'
        · exact absurd h' hm
      have hna' : a ∉ tl := ht ▸ hm
      refine ⟨0, ?_, by simp [ht]⟩
      simp [encodeLookup, ht, encodeLookup_eq_none_of_not_mem (k + 1) hna']

theorem encodeLookup_nodup {t : Int} :
    ∀ {as : List Int} (k j : Nat), as.Nodup → as.get? j = some t →
      encodeLookup k as t = some (((k + j : Nat) : Int)) := by
  intro as
  induction as with
  | nil => intro k j _ h; simp at h
  | cons a tl ih =>
    intro k j hnd hget
    rcases List.nodup_cons.mp hnd with ⟨hna, hndtl⟩
    cases j with
    | zero =>
      have ht : a = t := by simpa using hget
      subst ht
      simp [encodeLookup, encodeLookup_eq_none_of_not_mem (k + 1) hna]
    | succ j' =>
      have hrec := ih (k + 1) j' hndtl (by simpa using hget)
      rw [show (k + (j' + 1) : Nat) = (k + 1) + j' by omega]
      simp [encodeLookup, hrec]

theorem mem_setInsert {x a : Int} : ∀ {s : List Int}, x ∈ setInsert a s ↔ x = a ∨ x ∈ s := by
  intro s
  induction s with
  | nil => simp [setInsert]
  | cons y ys ih =>
    unfold setInsert
    by_cases h1 : a < y
    · rw [if_pos h1]
      simp [List.mem_cons]
    · rw [if_neg h1]
      by_cases h2 : a = y
      · rw [if_pos h2]
        subst h2
        simp only [List.mem_cons]
        tauto
      · rw [if_neg h2]
        simp only [List.mem_cons, ih]
        tauto

theorem mem_pySetOf {x : Int} {l : List Int} : x ∈ pySetOf l ↔ x ∈ l := by
  have main : ∀ (l acc : List Int),
      x ∈ l.foldl (fun s y => setInsert y s) acc ↔ x ∈ l ∨ x ∈ acc := by
    intro l
    induction l with
    | nil => intro acc; simp
    | cons a tl ih =>
      intro acc
      simp only [List.foldl_cons, ih, mem_setInsert, List.mem_cons]
      tauto
  simpa [pySetOf] using main l []

theorem countRequests_cons (u : Update) (us : List Update) :
    countRequests (u :: us) =
      (if u.request_sample == some true then 1 else 0) + countRequests us := by
  cases h : u.request_sample with
  | none => simp [countRequests, List.filter_cons, h]
  | some b => simp [countRequests, List.filter_cons, h]

theorem countRequests_eq_countP :
    ∀ batch : List Update,
      countRequests batch = batch.countP (fun u => u.request_sample == some true)
  | [] => rfl
  | u :: us => by
    rw [countRequests_cons, countRequests_eq_countP us, List.countP_cons]
    cases hb : (u.request_sample == some true) <;> simp [hb, Nat.add_comm]

theorem drainAll_spec :
    ∀ (q : List QueueItem) (s : EngineState) (r : Nat),
      (drainAll q s r).1.applied = s.applied ++ q.map toBatch
      ∧ (drainAll q s r).2 =
          r + ((q.map toBatch).flatten.countP (fun u => u.request_sample == some true))
  | [], s, r => by simp [drainAll]
  | item :: rest, s, r => by
    have ih := drainAll_spec rest (processItem item s) (r + countRequests (toBatch item))
    constructor
    · rw [drainAll, ih.1]
      simp [processItem, List.append_assoc]
    · rw [drainAll, ih.2, countRequests_eq_countP (toBatch item)]
      simp only [List.map_cons, List.flatten_cons, List.countP_append]
      omega

/-- Constructing a TaskSpace over `Discrete(len(tasks))` always succeeds
and yields the maps built from the task list in registration order. -/
theorem init_discrete_eq (tasks : List Int) :
    TaskSpace.init (.discrete (tasks.length : Int)) tasks =
      .ok { domain := .discrete (tasks.length : Int), encoder := mkDiscreteEncoder tasks,
            decoder := mkDiscreteDecoder tasks, tasks := pySetOf tasks } := by
  simp [TaskSpace.init, make_task_encoder]

/-- C1 (amended): for a TaskSpace constructed over Discrete(n) with a task
list of length n CONTAINING NO DUPLICATE ENTRIES, every registered task
round-trips through encode then decode, and every raw index in [0, n)
round-trips through decode then encode. -/
theorem discrete_roundtrip (n : Int) (tasks : List Int) (ts : TaskSpace)
    (hinit : TaskSpace.init (.discrete n) tasks = .ok ts) (hnd : tasks.Nodup) :
    (∀ t, t ∈ ts.tasks → ∃ i, ts.encode t = some i ∧ ts.decodeE i = .ok (some t))
    ∧ (∀ i : Int, 0 ≤ i → i < n → ∃ t, ts.decodeE i = .ok (some t) ∧ ts.encode t = some i) := by
  by_cases hn : n = (tasks.length : Int)
  case neg =>
    exfalso
    simp only [TaskSpace.init, make_task_encoder, if_neg hn] at hinit
    exact Except.noConfusion hinit
  case pos =>
  subst hn
  rw [init_discrete_eq] at hinit
  have hts := Except.ok.inj hinit
  subst hts
  constructor
  · intro t ht
    have htl : t ∈ tasks := mem_pySetOf.mp ht
    obtain ⟨j, hj1, hj2⟩ := encodeLookup_mem 0 htl
    obtain ⟨hjlt, -⟩ := List.get?_eq_some.mp hj2
    refine ⟨((j : Nat) : Int), ?_, ?_⟩
    · simp [TaskSpace.encode, mkDiscreteEncoder, makeEncodeMap, hj1]
    · have h1 : (0 : Int) ≤ ((j : Nat) : Int) := Int.natCast_nonneg j
      have h2 : (((j : Nat)) : Int) < ((tasks.length : Nat) : Int) := by exact_mod_cast hjlt
      have hj2' : tasks[j]? = some t := by
        rw [← List.get?_eq_getElem?]
        exact hj2
      simp [TaskSpace.decodeE, Domain.containsIdx, mkDiscreteDecoder, makeDecodeMap,
        h1, h2, hj2']
  · intro i h0 hlt
    have hjlen : i.toNat < tasks.length := by omega
    have hget : tasks.get? i.toNat = some (tasks.get ⟨i.toNat, hjlen⟩) := List.get?_eq_get hjlen
    refine ⟨tasks.get ⟨i.toNat, hjlen⟩, ?_, ?_⟩
    · simp [TaskSpace.decodeE, Domain.containsIdx, mkDiscreteDecoder, makeDecodeMap,
        h0, hlt, hget]
    · have henc := encodeLookup_nodup 0 i.toNat hnd hget
      simp only [TaskSpace.encode, mkDiscreteEncoder, makeEncodeMap, henc, Option.some.injEq]
      omega

/-- C1 witness: a concrete duplicate-free Discrete task space on which the
round trips of `discrete_roundtrip` hold. -/
theorem discrete_roundtrip_witness :
    TaskSpace.init (.discrete 2) [7, 9] = .ok tsRT
    ∧ ([7, 9] : List Int).Nodup
    ∧ ((∀ t, t ∈ tsRT.tasks → ∃ i, tsRT.encode t = some i ∧ tsRT.decodeE i = .ok (some t))
       ∧ (∀ i : Int, 0 ≤ i → i < 2 →
            ∃ t, tsRT.decodeE i = .ok (some t) ∧ tsRT.encode t = some i)) :=
  ⟨rfl, by decide, discrete_roundtrip 2 [7, 9] tsRT rfl (by decide)⟩

/-- C1 counterexample: `TaskSpace(Discrete(2), [5, 5])` is accepted, but
`encode(decode(0))` is 1, not 0, so the index round trip of the claim
fails for a task list that merely has length n. -/
theorem discrete_roundtrip_counterexample :
    tsC1.map (fun ts => (ts.decodeE 0).map (fun o => o.bind ts.encode)) = .ok (.ok (some 1))
    ∧ (1 : Int) ≠ 0 :=
  ⟨rfl, by decide⟩

/-- C2 (code bug): after `add_task(3)` on `TaskSpace(Discrete(3), [2, 1, 0])`,
`num_tasks` does grow from 3 to 4, but index 0 decoded to task 2 before the
call and decodes to task 0 after it, because the encode/decode rebuild
enumerates the task SET in its iteration order instead of the prior index
order — previously valid indices do not keep decoding to their prior
tasks. -/
theorem add_task_breaks_decode_stability :
    tsC2.map (fun ts => ts.decodeE 0) = .ok (.ok (some 2))
    ∧ tsC2'.map (fun ts => ts.decodeE 0) = .ok (.ok (some 0))
    ∧ tsC2.map TaskSpace.num_tasks = .ok (some 3)
    ∧ tsC2'.map TaskSpace.num_tasks = .ok (some 4) :=
  ⟨rfl, rfl, rfl, rfl⟩

/-- C3 (code bug): `count_tasks` returns the declared size for Discrete and
the product of the axis sizes for MultiDiscrete, but on a non-empty Tuple
or Dict it raises TypeError (the recursive call passes the keyword
`task_space` to a parameter named `gym_space`), and on MultiBinary it
raises AttributeError (MultiBinary has no attribute `nvec`). -/
theorem count_tasks_algebra_bug :
    count_tasks (.discrete 5) = .ok (some 5)
    ∧ count_tasks (.multiDiscrete (.arr [.size 2, .size 3])) = .ok (some 6)
    ∧ count_tasks (.tuple [.discrete 2, .discrete 3]) = .error .typeError
    ∧ count_tasks (.dict [.discrete 2, .discrete 3]) = .error .typeError
    ∧ count_tasks (.multiBinary (.arr [.size 2, .size 3])) = .error .attributeError := by
  refine ⟨rfl, ?_, rfl, rfl, rfl⟩
  simp [count_tasks, sum_axes]

/-- C4: `encode` never raises for any input (the try/except turns every
encoder exception into a `None` return), and `decode` returns `None`
rather than raising whenever the raw index lies outside the declared
Discrete domain. -/
theorem encode_never_raises_decode_none (ts : TaskSpace) :
    (∀ task : Int, ∃ v, ts.encodeE task = .ok v)
    ∧ (∀ n i : Int, ts.domain = .discrete n → i < 0 ∨ n ≤ i → ts.decodeE i = .ok none) := by
  constructor
  · intro task
    unfold TaskSpace.encodeE
    cases ts.encoder task with
    | ok v => exact ⟨v, rfl⟩
    | error e => exact ⟨none, rfl⟩
  · intro n i hdom hrange
    unfold TaskSpace.decodeE
    rw [hdom]
    have hc : Domain.containsIdx (.discrete n) i = false := by
      unfold Domain.containsIdx
      simp only [decide_eq_false_iff_not]
      omega
    rw [hc]
    simp

/-- C4 witness: on a concrete Discrete task space, encoding an unknown
task returns normally and decoding the out-of-range index -1 yields
`None`. -/
theorem encode_never_raises_decode_none_witness :
    (∃ v, tsW.encodeE 5 = .ok v)
    ∧ (tsW.domain = .discrete 1 ∧ ((-1 : Int) < 0 ∨ (1 : Int) ≤ -1)
        ∧ tsW.decodeE (-1) = .ok none) :=
  ⟨(encode_never_raises_decode_none tsW).1 5,
   rfl, Or.inl (by decide),
   (encode_never_raises_decode_none tsW).2 1 (-1) rfl (Or.inl (by decide))⟩

/-- C5 counterexample: on a Box-backed (non-Discrete) task space,
`increase_space` does NOT raise: it silently returns `None`. -/
theorem increase_space_box_returns_none :
    tsBox.increase_space (.int 1) = .ok none := rfl

/-- C5 (amended): a non-integer amount on a Discrete domain fails fast with
AssertionError, but on a non-Discrete domain `increase_space` silently
returns `None` instead of raising. -/
theorem increase_space_amended (ts : TaskSpace) :
    (∀ (n : Int) (q : ℚ), ts.domain = .discrete n →
        ts.increase_space (.float q) = .error .assertionError)
    ∧ (∀ (mem : Int → Bool) (a : PyNum), ts.domain = .box mem →
        ts.increase_space a = .ok none) := by
  constructor
  · intro n q hdom
    unfold TaskSpace.increase_space
    rw [hdom]
  · intro mem a hdom
    unfold TaskSpace.increase_space
    rw [hdom]

/-- C5 witness: the two contract branches at concrete inputs. -/
theorem increase_space_amended_witness :
    (tsW.domain = .discrete 1 ∧ tsW.increase_space (.float (1 / 2)) = .error .assertionError)
    ∧ (tsBox.domain = .box (fun _ => false) ∧ tsBox.increase_space (.int 3) = .ok none) :=
  ⟨⟨rfl, (increase_space_amended tsW).1 1 (1 / 2) rfl⟩,
   ⟨rfl, (increase_space_amended tsBox).2 (fun _ => false) (.int 3) rfl⟩⟩

/-- C6 (amended): at every observation point of the engine, the credit
counter `queued_tasks` equals the number of non-seed assignment messages
dispatched so far minus the number of consumed update entries whose
`request_sample` flag is true.  (The "never negative" half of the original
claim is false: see the counterexample.) -/
theorem credit_counter_invariant (sample : Nat → List Int) (s : EngineState)
    (h : Reach sample s) :
    s.queued_tasks = (s.dispatched_nonseed : Int) - (s.consumed_requests : Int) := by
  induction h with
  | init n => rfl
  | start h ih => simpa [start] using ih
  | enqueue item h ih => simpa [enqueueItem] using ih
  | popTask h ih => simpa [popTaskMsg] using ih
  | processOne item rest h heq ih =>
    simp only [processItem]
    omega
  | dispatchOne t h ih =>
    simp only [dispatchTasks]
    omega

/-- C6 witness: the invariant at the initial state of a 2-worker engine. -/
theorem credit_counter_invariant_witness :
    (initState 2).queued_tasks =
      ((initState 2).dispatched_nonseed : Int) - ((initState 2).consumed_requests : Int) :=
  credit_counter_invariant sampleC (initState 2) (Reach.init 2)

/-- C6 counterexample: a reachable observation point with a NEGATIVE
credit counter — after `start()` seeds two workers (no credits), one
worker posts a `request_sample = True` update for its seed task, and the
engine processes it, `queued_tasks` is -1. -/
theorem credit_counter_goes_negative :
    Reach sampleC sC3 ∧ sC3.queued_tasks = -1 := by
  constructor
  · exact Reach.processOne (QueueItem.single updC) []
      (Reach.enqueue (QueueItem.single updC) (Reach.start (Reach.init 2))) rfl
  · rfl

/-- C7: `start()` on an engine with N workers samples N tasks, enqueues
exactly one assignment message per sampled task (so N messages), and
leaves the credit counter unchanged. -/
theorem start_seeds_per_worker (sample : Nat → List Int) (s : EngineState)
    (hlen : (sample s.num_envs).length = s.num_envs) :
    (start sample s).task_queue =
        s.task_queue ++ (sample s.num_envs).map (fun t => { next_task := t, added_tasks := none })
    ∧ (start sample s).task_queue.length = s.task_queue.length + s.num_envs
    ∧ (start sample s).queued_tasks = s.queued_tasks := by
  refine ⟨rfl, ?_, rfl⟩
  simp [start, hlen]

/-- C7 witness: a fresh 2-worker engine after `start()` with a concrete
curriculum. -/
theorem start_seeds_per_worker_witness :
    (sampleC (initState 2).num_envs).length = (initState 2).num_envs
    ∧ ((start sampleC (initState 2)).task_queue =
        (initState 2).task_queue ++
          (sampleC (initState 2).num_envs).map (fun t => { next_task := t, added_tasks := none })
      ∧ (start sampleC (initState 2)).task_queue.length =
          (initState 2).task_queue.length + (initState 2).num_envs
      ∧ (start sampleC (initState 2)).queued_tasks = (initState 2).queued_tasks) :=
  ⟨rfl, start_seeds_per_worker sampleC (initState 2) rfl⟩

/-- C8: in one drain of the update queue, every drained batch is passed to
the curriculum's batch-update operation unconditionally and in full, a
bare single update is treated as a one-element batch, and the resample
count R counts exactly the entries whose `request_sample` flag is present
and true (an absent flag counts as false). -/
theorem drain_applies_all_batches (q : List QueueItem) (s : EngineState) :
    (drainAll q s 0).1.applied = s.applied ++ q.map toBatch
    ∧ (∀ u : Update, toBatch (.single u) = [u])
    ∧ (drainAll q s 0).2 =
        (q.map toBatch).flatten.countP (fun u => u.request_sample == some true) := by
  refine ⟨(drainAll_spec q s 0).1, fun u => rfl, ?_⟩
  simpa using (drainAll_spec q s 0).2

/-- C9 (code bug): the installed implementation of every unmodified facade
operation — `remote_call`'s wrapper — compares a bound method with a plain
function, which is never equal in Python, so it NEVER forwards the call to
the remote curriculum and always returns `None`. -/
theorem remote_call_never_forwards (objId : Nat) (f_name : String) (remoteResult : Int) :
    installedFacadeImpl objId f_name remoteResult = { forwarded := false, result := none } := rfl

/-- C10: calling `add_task` with a task already in the known-task set
returns the TaskSpace object entirely unchanged: domain, encoder, decoder
and task set are identical. -/
theorem add_task_existing_is_noop (ts : TaskSpace) (task : Int) (h : task ∈ ts.tasks) :
    ts.add_task task = .ok ts := by
  simp [TaskSpace.add_task, h]

/-- C10 witness: re-adding task 0 to `TaskSpace(Discrete(1), [0])` is a
no-op. -/
theorem add_task_existing_is_noop_witness :
    (0 : Int) ∈ tsW.tasks ∧ tsW.add_task 0 = .ok tsW :=
  ⟨by decide, add_task_existing_is_noop tsW 0 (by decide)⟩
